import Mathlib

/-!
Verification of the draftcheck LaTeX linter (modules `draftcheck/rules.py` and
`draftcheck/validator.py`) against its natural-language specification.

Text is modelled as `List Char` (Python byte strings, one char per byte for the
ASCII inputs involved).  Regular expressions are embedded as a first-order
syntax tree `RE` together with a fuel-driven backtracking matcher `reMatch`
that follows CPython's `sre` backtracking order (alternatives left to right,
greedy/lazy repetition, leftmost match in `finditer`).  The code is Python 2,
so `\w`, `\s`, `\d` are the ASCII classes and an unrecognized escape of an
ASCII letter denotes that literal letter.

Every registered rule body in `rules.py` is literally
`return [m.span() for m in matches]`, so a rule is embedded as its compiled
pattern plus the metadata stored by the `rule` decorator, and `rule_wrapper`
embeds the decorator's `wrapper` closure (the environment filter).
-/

/-- Python 2 `\w` on a byte string: ASCII letters, digits and underscore. -/
def isWordCh (c : Char) : Bool :=
  (('a' ≤ c && c ≤ 'z') || ('A' ≤ c && c ≤ 'Z') || ('0' ≤ c && c ≤ '9') || c = '_')

/-- Python 2 `\s`: space, tab, newline, vertical tab, form feed, carriage return. -/
def isSpaceCh (c : Char) : Bool :=
  (c = ' ' || c = '\t' || c = '\n' || c = '\x0b' || c = '\x0c' || c = '\x0d')

/-- Python 2 `\d`: ASCII digits. -/
def isDigitCh (c : Char) : Bool :=
  ('0' ≤ c && c ≤ '9')

/-- One item of a regex character class `[...]`. -/
inductive CItem where
  | ch (c : Char)
  | range (lo hi : Char)
  | digit
  | space
  | word
deriving DecidableEq, Repr

/-- Whether a character matches one class item. -/
def matchCItem (c : Char) : CItem → Bool
  | .ch d => c = d
  | .range lo hi => lo ≤ c && c ≤ hi
  | .digit => isDigitCh c
  | .space => isSpaceCh c
  | .word => isWordCh c

/-- First-order syntax of the regular expressions used in `rules.py` and
`validator.py`: literal characters, character classes (possibly negated),
`.`, concatenation, ordered alternation, greedy/lazy star, `^`, `\b`,
capturing groups, backreferences, negative lookahead, and fixed-string
negative lookbehind. -/
inductive RE where
  | eps
  | ch (c : Char)
  | cls (neg : Bool) (items : List CItem)
  | dot
  | cat (a b : RE)
  | alt (a b : RE)
  | star (r : RE) (lazy : Bool)
  | bol
  | wordB
  | grp (n : Nat) (r : RE)
  | bref (n : Nat)
  | nla (r : RE)
  | nlbs (cs : List Char)
deriving DecidableEq, Repr

/-- Literal string pattern. -/
def reStr (cs : List Char) : RE :=
  cs.foldr (fun c acc => .cat (.ch c) acc) .eps

/-- Ordered alternation of a list of patterns (left to right). -/
def reAlts : List RE → RE
  | [] => .eps
  | [r] => r
  | r :: rest => .alt r (reAlts rest)

/-- Greedy `+`. -/
def rePlusG (r : RE) : RE := .cat r (.star r false)

/-- Lazy `+?`. -/
def rePlusL (r : RE) : RE := .cat r (.star r true)

/-- Greedy `?`. -/
def reOptG (r : RE) : RE := .alt r .eps

/-- Size of a pattern, used only to compute a sufficient fuel bound. -/
def reSize : RE → Nat
  | .cat a b => reSize a + reSize b + 1
  | .alt a b => reSize a + reSize b + 1
  | .star r _ => reSize r + 1
  | .grp _ r => reSize r + 1
  | .nla r => reSize r + 1
  | _ => 1

/-- Whether the (optional) character at a position is a word character;
positions outside the string count as non-word, as in `sre`. -/
def optIsWord : Option Char → Bool
  | some c => isWordCh c
  | none => false

/-- The slice `s[a:b]` of a Python string. -/
def strSlice (s : List Char) (a b : Nat) : List Char :=
  (s.drop a).take (b - a)

/-- Look up the most recent value of a capture group. -/
def lookupCap (n : Nat) (caps : List (Nat × Nat × Nat)) : Option (Nat × Nat) :=
  (caps.find? (fun t => t.1 == n)).map (fun t => (t.2.1, t.2.2))

/-- Backtracking regex matcher in continuation-passing style, mirroring
CPython's `sre` engine on the constructs of `RE`: alternatives are tried left
to right, greedy stars consume as much as possible first, lazy stars as
little as possible, and a repetition making no progress stops iterating.
The continuation receives the current position and capture list; `none`
signals failure and triggers backtracking in the caller.  `fuel` only bounds
the recursion depth; it is chosen large enough in `matchAt` that it is never
exhausted on the inputs evaluated in this development. -/
def reMatch (s : List Char) : Nat → RE → Nat → List (Nat × Nat × Nat) →
    (Nat → List (Nat × Nat × Nat) → Option Nat) → Option Nat
  | 0, _, _, _, _ => none
  | fuel + 1, r, i, caps, k =>
    match r with
    | .eps => k i caps
    | .ch c =>
      match s.get? i with
      | some d => if d = c then k (i + 1) caps else none
      | none => none
    | .cls neg items =>
      match s.get? i with
      | some d =>
        if (if neg then !(items.any (matchCItem d)) else items.any (matchCItem d)) then
          k (i + 1) caps
        else none
      | none => none
    | .dot =>
      match s.get? i with
      | some d => if d = '\n' then none else k (i + 1) caps
      | none => none
    | .cat a b => reMatch s fuel a i caps (fun j cs => reMatch s fuel b j cs k)
    | .alt a b =>
      match reMatch s fuel a i caps k with
      | some x => some x
      | none => reMatch s fuel b i caps k
    | .star r lzy =>
      if lzy then
        match k i caps with
        | some x => some x
        | none =>
          reMatch s fuel r i caps
            (fun j cs => if i < j then reMatch s fuel (.star r true) j cs k else none)
      else
        match reMatch s fuel r i caps
            (fun j cs => if i < j then reMatch s fuel (.star r false) j cs k else none) with
        | some x => some x
        | none => k i caps
    | .bol => if i = 0 then k i caps else none
    | .wordB =>
      if optIsWord (match i with | 0 => none | n + 1 => s.get? n) ≠ optIsWord (s.get? i) then
        k i caps
      else none
    | .grp n r => reMatch s fuel r i caps (fun j cs => k j ((n, i, j) :: cs))
    | .bref n =>
      match lookupCap n caps with
      | none => none
      | some (a, b) =>
        if strSlice s i (i + (b - a)) = strSlice s a b then k (i + (b - a)) caps else none
    | .nla r =>
      match reMatch s fuel r i caps (fun j _ => some j) with
      | some _ => none
      | none => k i caps
    | .nlbs cs =>
      if cs.length ≤ i ∧ strSlice s (i - cs.length) i = cs then none else k i caps

/-- Try to match pattern `r` at position `i` of `s`; returns the end position
of the (leftmost-preferred) match, like `pattern.match(s, i)`. -/
def matchAt (r : RE) (s : List Char) (i : Nat) : Option Nat :=
  reMatch s ((s.length + 2) * (reSize r + 2)) r i [] (fun j _ => some j)

/-- Scanning loop of `re.finditer`: try a match at each position from left to
right, and resume after the end of each (non-empty) match. -/
def findItAux (r : RE) (s : List Char) : Nat → Nat → List (Nat × Nat)
  | 0, _ => []
  | steps + 1, i =>
    if i ≤ s.length then
      match matchAt r s i with
      | some j => (i, j) :: findItAux r s steps (if i < j then j else i + 1)
      | none => findItAux r s steps (i + 1)
    else []

/-- The spans `[m.span() for m in re.finditer(pattern, s)]` — exactly what
every registered rule body in `rules.py` returns. -/
def findSpans (r : RE) (s : List Char) : List (Nat × Nat) :=
  findItAux r s (s.length + 2) 0

/-- Shorthand for the class `\s`. -/
def spaceC : RE := .cls false [.space]

/-- Shorthand for the class `\d`. -/
def digitC : RE := .cls false [.digit]

/-- Shorthand for the class `\w`. -/
def wordC : RE := .cls false [.word]

/-- Shorthand for the class `[a-z]`. -/
def lowerC : RE := .cls false [.range 'a' 'z']

/-- A registered rule: the attributes stored on the `wrapper` closure by the
`rule` decorator in `rules.py` (`id`, `show_spaces`, `in_env`) together with
the compiled pattern.  Every decorated rule body is
`return [m.span() for m in matches]`, so the pattern determines the rule's
behaviour completely. -/
structure Rule where
  id : Nat
  show_spaces : Bool
  in_env : String
  pattern : RE
deriving DecidableEq, Repr

/-- The `wrapper` closure produced by the `rule` decorator: if the rule's
environment is `"any"` or equals the current environment, return the spans of
`re.finditer(pattern, text)`; otherwise return `[]`. -/
def rule_wrapper (r : Rule) (text : List Char) (env : String) : List (Nat × Nat) :=
  if r.in_env = "any" ∨ env = r.in_env then findSpans r.pattern text else []

/-- Rule 1, pattern `\s+\\footnote{`, `show_spaces=True`. -/
def check_space_before_footnote : Rule :=
  ⟨1, true, "paragraph", .cat (rePlusG spaceC) (reStr "\\footnote\x7b".toList)⟩

/-- Rule 2, pattern `\.\\cite{`. -/
def check_cite_after_period : Rule :=
  ⟨2, false, "paragraph", reStr ".\\cite\x7b".toList⟩

/-- Rule 3, pattern `\b(:?in|as|on|by)[ ~]\\cite{` (note the source's `(:?`:
a capturing group whose first alternative starts with an optional colon). -/
def check_cite_used_as_noun : Rule :=
  ⟨3, false, "paragraph",
    .cat .wordB (.cat
      (.grp 1 (reAlts [.cat (reOptG (.ch ':')) (reStr "in".toList),
        reStr "as".toList, reStr "on".toList, reStr "by".toList]))
      (.cat (.cls false [.ch ' ', .ch '~']) (reStr "\\cite\x7b".toList)))⟩

/-- Rule 4, pattern `[^~]\\cite{`. -/
def check_no_space_before_cite : Rule :=
  ⟨4, false, "paragraph", .cat (.cls true [.ch '~']) (reStr "\\cite\x7b".toList)⟩

/-- Rule 5, pattern `[^~]\\ref{`. -/
def check_no_space_before_ref : Rule :=
  ⟨5, false, "paragraph", .cat (.cls true [.ch '~']) (reStr "\\ref\x7b".toList)⟩

/-- Rule 6, pattern `\d+%`. -/
def check_unescaped_percentage : Rule :=
  ⟨6, false, "paragraph", .cat (rePlusG digitC) (.ch '%')⟩

/-- Rule 7, pattern `\s[,;.!?]`, `show_spaces=True`. -/
def check_space_before_punctuation : Rule :=
  ⟨7, true, "paragraph",
    .cat spaceC (.cls false [.ch ',', .ch ';', .ch '.', .ch '!', .ch '?'])⟩

/-- Rule 8, pattern `\w+\(|\)\w+`, `show_spaces=True`. -/
def check_no_space_next_to_parentheses : Rule :=
  ⟨8, true, "paragraph",
    .alt (.cat (rePlusG wordC) (.ch '(')) (.cat (.ch ')') (rePlusG wordC))⟩

/-- Rule 9, pattern `\d+\s?x\d+`. -/
def check_incorrect_usage_of_x_as_times : Rule :=
  ⟨9, false, "paragraph",
    .cat (rePlusG digitC) (.cat (reOptG spaceC) (.cat (.ch 'x') (rePlusG digitC)))⟩

/-- Rule 10, pattern `[a-z]+\s-\s[a-z]+`. -/
def check_space_surrounded_dash : Rule :=
  ⟨10, false, "paragraph",
    .cat (rePlusG lowerC) (.cat spaceC (.cat (.ch '-') (.cat spaceC (rePlusG lowerC))))⟩

/-- Rule 11, pattern `\b([a-z]+)\s+\1\b(?![^{]*})`. -/
def check_duplicate_word : Rule :=
  ⟨11, false, "paragraph",
    .cat .wordB (.cat (.grp 1 (rePlusG lowerC)) (.cat (rePlusG spaceC)
      (.cat (.bref 1) (.cat .wordB
        (.nla (.cat (.star (.cls true [.ch '\x7b']) false) (.ch '\x7d')))))))⟩

/-- Rule 12, pattern `\.\.\.`. -/
def check_dot_dot_dot : Rule :=
  ⟨12, false, "paragraph", reStr "...".toList⟩

/-- Rule 13, pattern `"`. -/
def check_double_quote : Rule :=
  ⟨13, false, "paragraph", .ch '\x22'⟩

/-- Rule 14, single-quote pattern `\s` + quote + `.+?` + quote + `[\s\.,]`. -/
def check_single_quote : Rule :=
  ⟨14, false, "paragraph",
    .cat spaceC (.cat (.ch '\x27') (.cat (rePlusL .dot)
      (.cat (.ch '\x27') (.cls false [.space, .ch '.', .ch ',']))))⟩

/-- Rule 15, pattern `\\begin{center}`, `in_env="any"`. -/
def check_begin_center : Rule :=
  ⟨15, false, "any", reStr "\\begin\x7bcenter\x7d".toList⟩

/-- Rule 16, pattern `^\$\$`, `in_env="math"`. -/
def check_double_dollar_math : Rule :=
  ⟨16, false, "math", .cat .bol (reStr "$$".toList)⟩

/-- Rule 17, pattern `\d\s?-\s?\d`. -/
def check_numeric_range_dash : Rule :=
  ⟨17, false, "paragraph",
    .cat digitC (.cat (reOptG spaceC) (.cat (.ch '-') (.cat (reOptG spaceC) digitC)))⟩

/-- Rule 18, pattern `\\footnote{.+?}[,;.?]`. -/
def check_footnote_before_punctuation : Rule :=
  ⟨18, false, "paragraph",
    .cat (reStr "\\footnote\x7b".toList) (.cat (rePlusL .dot)
      (.cat (.ch '\x7d') (.cls false [.ch ',', .ch ';', .ch '.', .ch '?'])))⟩

/-- Rule 19, pattern `<[^\s](.+?)[^\s]>`, `in_env="math"`. -/
def check_relational_operators : Rule :=
  ⟨19, false, "math",
    .cat (.ch '<') (.cat (.cls true [.space]) (.cat (.grp 1 (rePlusL .dot))
      (.cat (.cls true [.space]) (.ch '>'))))⟩

/-- Rule 20, pattern `\\cite{.+?}\s?\\cite{`. -/
def check_multiple_cite : Rule :=
  ⟨20, false, "paragraph",
    .cat (reStr "\\cite\x7b".toList) (.cat (rePlusL .dot) (.cat (.ch '\x7d')
      (.cat (reOptG spaceC) (reStr "\\cite\x7b".toList))))⟩

/-- Rule 21, pattern `\d(m|A|kg|s|K|mol|cd)\b`. -/
def check_number_next_to_unit : Rule :=
  ⟨21, false, "paragraph",
    .cat digitC (.cat (.grp 1 (reAlts [reStr "m".toList, reStr "A".toList,
      reStr "kg".toList, reStr "s".toList, reStr "K".toList, reStr "mol".toList,
      reStr "cd".toList])) .wordB)⟩

/-- Rule 22, pattern `[^\\](sin|cos|tan|log|max|min)`, `in_env="math"`. -/
def check_unescaped_named_math_operators : Rule :=
  ⟨22, false, "math",
    .cat (.cls true [.ch '\\']) (.grp 1 (reAlts [reStr "sin".toList,
      reStr "cos".toList, reStr "tan".toList, reStr "log".toList,
      reStr "max".toList, reStr "min".toList]))⟩

/-- Rule 23, pattern `\b(e\.g\.|i\.e\.)\s+`. -/
def check_abbreviation_innerword_spacing : Rule :=
  ⟨23, false, "paragraph",
    .cat .wordB (.cat (.grp 1 (.alt (reStr "e.g.".toList) (reStr "i.e.".toList)))
      (rePlusG spaceC))⟩

/-- Rule 24, pattern `\\def\\[a-z]+{`. -/
def check_def_command : Rule :=
  ⟨24, false, "paragraph",
    .cat (reStr "\\def\\".toList) (.cat (rePlusG lowerC) (.ch '\x7b'))⟩

/-- Rule 25, pattern `\\sloppy`. -/
def check_sloppy_command : Rule :=
  ⟨25, false, "paragraph", reStr "\\sloppy".toList⟩

/-- Rule 26: three apostrophes or three backticks. -/
def check_triple_quote : Rule :=
  ⟨26, false, "paragraph", .alt (reStr "\x27\x27\x27".toList) (reStr "\x60\x60\x60".toList)⟩

/-- Rule 27, pattern `1st|2nd|3rd`. -/
def check_unspelt_ordinal_numbers : Rule :=
  ⟨27, false, "paragraph",
    reAlts [reStr "1st".toList, reStr "2nd".toList, reStr "3rd".toList]⟩

/-- Rule 28, pattern `[a-z]+ \d [a-z]+`. -/
def check_unspelt_single_digit_numbers : Rule :=
  ⟨28, false, "paragraph",
    .cat (rePlusG lowerC) (.cat (.ch ' ') (.cat digitC (.cat (.ch ' ') (rePlusG lowerC))))⟩

/-- Rule 29, pattern `,\s*\.\.\.\s*,`, `in_env="math"`. -/
def check_dot_dot_dot_maths : Rule :=
  ⟨29, false, "math",
    .cat (.ch ',') (.cat (.star spaceC false) (.cat (reStr "...".toList)
      (.cat (.star spaceC false) (.ch ','))))⟩

/-- The character class `[-A-Za-z0-9+&@#/%?=~_|!:,.;]` of the bare-URL rule. -/
def urlTailC : RE :=
  .cls false [.ch '-', .range 'A' 'Z', .range 'a' 'z', .range '0' '9', .ch '+',
    .ch '&', .ch '@', .ch '#', .ch '/', .ch '%', .ch '?', .ch '=', .ch '~',
    .ch '_', .ch '|', .ch '!', .ch ':', .ch ',', .ch '.', .ch ';']

/-- Rule 30, pattern `(?<!\\url{)(\bhttps?://)[^\s.]+\.[-A-Za-z0-9+&@#/%?=~_|!:,.;]+`. -/
def check_bare_urls : Rule :=
  ⟨30, false, "paragraph",
    .cat (.nlbs "\\url\x7b".toList)
      (.cat (.grp 1 (.cat .wordB (.cat (reStr "http".toList)
        (.cat (reOptG (.ch 's')) (reStr "://".toList)))))
      (.cat (rePlusG (.cls true [.space, .ch '.'])) (.cat (.ch '.') (rePlusG urlTailC))))⟩

/-- Rule 31, pattern `\.  [A-Z]`. -/
def check_double_space : Rule :=
  ⟨31, false, "paragraph",
    .cat (.ch '.') (.cat (reStr "  ".toList) (.cls false [.range 'A' 'Z']))⟩

/-- Rule 32, generated by `check_incorrect_abbreviations`: `\bet\. al\.\b`. -/
def generated_rule_et_al : Rule :=
  ⟨32, false, "paragraph", .cat .wordB (.cat (reStr "et. al.".toList) .wordB)⟩

/-- Rule 33, generated by `check_incorrect_abbreviations`: `\betc[^\.]\b`. -/
def generated_rule_etc : Rule :=
  ⟨33, false, "paragraph",
    .cat .wordB (.cat (reStr "etc".toList) (.cat (.cls true [.ch '.']) .wordB))⟩

/-- Rule 34, generated by `check_incorrect_abbreviations`: `\bi\.e[^\.]\b`. -/
def generated_rule_ie : Rule :=
  ⟨34, false, "paragraph",
    .cat .wordB (.cat (reStr "i.e".toList) (.cat (.cls true [.ch '.']) .wordB))⟩

/-- Rule 35, generated by `check_incorrect_abbreviations`: `\be\.g[^\.]\b`. -/
def generated_rule_eg : Rule :=
  ⟨35, false, "paragraph",
    .cat .wordB (.cat (reStr "e.g".toList) (.cat (.cls true [.ch '.']) .wordB))⟩

/-- Rule 36, generated by `check_incorrect_abbreviations`: `\bDr\.\b`. -/
def generated_rule_dr : Rule :=
  ⟨36, false, "paragraph", .cat .wordB (.cat (reStr "Dr.".toList) .wordB)⟩

/-- Rule 37, generated by `check_obsolete_commands`: pattern string `\rm{`,
in which Python 2 `re` reads `\r` as a carriage return. -/
def generated_rule_rm : Rule :=
  ⟨37, false, "paragraph", .cat (.ch '\x0d') (reStr "m\x7b".toList)⟩

/-- Rule 38, generated by `check_obsolete_commands`: `\tt{` (`\t` is a tab). -/
def generated_rule_tt : Rule :=
  ⟨38, false, "paragraph", .cat (.ch '\t') (reStr "t\x7b".toList)⟩

/-- Rule 39, generated by `check_obsolete_commands`: `\it{` (Python 2 treats
the unknown escape `\i` as the literal letter `i`). -/
def generated_rule_it : Rule :=
  ⟨39, false, "paragraph", reStr "it\x7b".toList⟩

/-- Rule 40, generated by `check_obsolete_commands`: `\bf{` (`\b` is a word
boundary). -/
def generated_rule_bf : Rule :=
  ⟨40, false, "paragraph", .cat .wordB (reStr "f\x7b".toList)⟩

/-- Rule 41, generated by `check_obsolete_commands`: `\sc{` (`\s` is the
whitespace class). -/
def generated_rule_sc : Rule :=
  ⟨41, false, "paragraph", .cat spaceC (reStr "c\x7b".toList)⟩

/-- Rule 42, generated by `check_obsolete_commands`: `\sf{`. -/
def generated_rule_sf : Rule :=
  ⟨42, false, "paragraph", .cat spaceC (reStr "f\x7b".toList)⟩

/-- Rule 43, generated by `check_obsolete_commands`: `\sl{`. -/
def generated_rule_sl : Rule :=
  ⟨43, false, "paragraph", .cat spaceC (reStr "l\x7b".toList)⟩

/-- Rule 44, generated by `check_obsolete_commands`: `\over{` (unknown escape
`\o` is the literal letter `o`). -/
def generated_rule_over : Rule :=
  ⟨44, false, "paragraph", reStr "over\x7b".toList⟩

/-- Rule 45, generated by `check_obsolete_commands`: `\centerline{`. -/
def generated_rule_centerline : Rule :=
  ⟨45, false, "paragraph", reStr "centerline\x7b".toList⟩

/-- Rule 46, generated by `check_obsolete_packages`: `\a4{` (`\a` is BEL). -/
def generated_rule_a4 : Rule :=
  ⟨46, false, "paragraph", .cat (.ch '\x07') (reStr "4\x7b".toList)⟩

/-- Rule 47, generated by `check_obsolete_packages`: `\a4wide{`. -/
def generated_rule_a4wide : Rule :=
  ⟨47, false, "paragraph", .cat (.ch '\x07') (reStr "4wide\x7b".toList)⟩

/-- Rule 48, generated by `check_obsolete_packages`: `\t1enc{` (`\t` is a tab). -/
def generated_rule_t1enc : Rule :=
  ⟨48, false, "paragraph", .cat (.ch '\t') (reStr "1enc\x7b".toList)⟩

/-- Rule 49, generated by `check_obsolete_packages`: `\umlaute{` (unknown
escape `\u` in Python 2 byte patterns is the literal letter `u`). -/
def generated_rule_umlaute : Rule :=
  ⟨49, false, "paragraph", reStr "umlaute\x7b".toList⟩

/-- Rule 50, generated by `check_obsolete_packages`: `\isolatin{`. -/
def generated_rule_isolatin : Rule :=
  ⟨50, false, "paragraph", reStr "isolatin\x7b".toList⟩

/-- Rule 51, generated by `check_obsolete_packages`: `\isolatin1{`. -/
def generated_rule_isolatin1 : Rule :=
  ⟨51, false, "paragraph", reStr "isolatin1\x7b".toList⟩

/-- Rule 52, generated by `check_obsolete_packages`: `\fancyheadings{` (`\f`
is a form feed). -/
def generated_rule_fancyheadings : Rule :=
  ⟨52, false, "paragraph", .cat (.ch '\x0c') (reStr "ancyheadings\x7b".toList)⟩

/-- Rule 53, generated by `check_obsolete_packages`: `\mathptm{`. -/
def generated_rule_mathptm : Rule :=
  ⟨53, false, "paragraph", reStr "mathptm\x7b".toList⟩

/-- Rule 54, generated by `check_obsolete_packages`: `\mathpple{`. -/
def generated_rule_mathpple : Rule :=
  ⟨54, false, "paragraph", reStr "mathpple\x7b".toList⟩

/-- Rule 55, generated by `check_obsolete_packages`: `\epsf{`. -/
def generated_rule_epsf : Rule :=
  ⟨55, false, "paragraph", reStr "epsf\x7b".toList⟩

/-- Rule 56, generated by `check_obsolete_packages`: `\epsfig{`. -/
def generated_rule_epsfig : Rule :=
  ⟨56, false, "paragraph", reStr "epsfig\x7b".toList⟩

/-- Rule 57, generated by `check_obsolete_packages`: `\doublespace{` (`\d` is
the digit class). -/
def generated_rule_doublespace : Rule :=
  ⟨57, false, "paragraph", .cat digitC (reStr "oublespace\x7b".toList)⟩

/-- Rule 58, generated by `check_obsolete_packages`: `\scrpage{` (`\s` is the
whitespace class). -/
def generated_rule_scrpage : Rule :=
  ⟨58, false, "paragraph", .cat spaceC (reStr "crpage\x7b".toList)⟩

/-- Rule 59, generated by `check_obsolete_environments`: `\begin{eqnarray}`
(single backslash in the source string, so `\b` is a word boundary). -/
def generated_rule_env_eqnarray : Rule :=
  ⟨59, false, "paragraph", .cat .wordB (reStr "egin\x7beqnarray\x7d".toList)⟩

/-- Rule 60, generated by `check_obsolete_environments`: `\begin{appendix}`. -/
def generated_rule_env_appendix : Rule :=
  ⟨60, false, "paragraph", .cat .wordB (reStr "egin\x7bappendix\x7d".toList)⟩

/-- The global `RULES_LIST` of `rules.py`, in registration order.  (The rules
produced by one `rule_generator` group are registered in the iteration order
of a Python 2 dict; no claim below depends on the relative order inside a
group, and the source-text order is used here.) -/
def RULES_LIST : List Rule :=
  [check_space_before_footnote, check_cite_after_period, check_cite_used_as_noun,
   check_no_space_before_cite, check_no_space_before_ref, check_unescaped_percentage,
   check_space_before_punctuation, check_no_space_next_to_parentheses,
   check_incorrect_usage_of_x_as_times, check_space_surrounded_dash,
   check_duplicate_word, check_dot_dot_dot, check_double_quote, check_single_quote,
   check_begin_center, check_double_dollar_math, check_numeric_range_dash,
   check_footnote_before_punctuation, check_relational_operators, check_multiple_cite,
   check_number_next_to_unit, check_unescaped_named_math_operators,
   check_abbreviation_innerword_spacing, check_def_command, check_sloppy_command,
   check_triple_quote, check_unspelt_ordinal_numbers, check_unspelt_single_digit_numbers,
   check_dot_dot_dot_maths, check_bare_urls, check_double_space,
   generated_rule_et_al, generated_rule_etc, generated_rule_ie, generated_rule_eg,
   generated_rule_dr, generated_rule_rm, generated_rule_tt, generated_rule_it,
   generated_rule_bf, generated_rule_sc, generated_rule_sf, generated_rule_sl,
   generated_rule_over, generated_rule_centerline, generated_rule_a4,
   generated_rule_a4wide, generated_rule_t1enc, generated_rule_umlaute,
   generated_rule_isolatin, generated_rule_isolatin1, generated_rule_fancyheadings,
   generated_rule_mathptm, generated_rule_mathpple, generated_rule_epsf,
   generated_rule_epsfig, generated_rule_doublespace, generated_rule_scrpage,
   generated_rule_env_eqnarray, generated_rule_env_appendix]

/-- The flattened `LATEX_ENVS` dictionary of `validator.py` (line 13): each
environment name maps to its category, anything else to `"unknown"` via
`.get(name, "unknown")`. -/
def LATEX_ENVS (w : String) : String :=
  if w = "math" ∨ w = "array" ∨ w = "eqnarray" ∨ w = "equation" ∨ w = "align" then
    "math"
  else if w = "abstract" ∨ w = "document" ∨ w = "titlepage" then
    "paragraph"
  else "unknown"

/-- Does `pat` occur at the start of `s`? -/
def listStarts : List Char → List Char → Bool
  | [], _ => true
  | _ :: _, [] => false
  | p :: ps, c :: cs => p == c && listStarts ps cs

/-- Does `pat` occur as a contiguous subsequence of `s`? -/
def hasSub (pat : List Char) : List Char → Bool
  | [] => listStarts pat []
  | c :: rest => listStarts pat (c :: rest) || hasSub pat rest

/-- The prefix `\begin{` of `env_begin_regex`. -/
def beginMarker : List Char := ['\\', 'b', 'e', 'g', 'i', 'n', '\x7b']

/-- The prefix `\end{` of `env_end_regex`. -/
def endMarker : List Char := ['\\', 'e', 'n', 'd', '\x7b']

/-- Embeds `Validator.env_begin_regex.match(line)` for `\\begin{(\w+)}`,
returning the captured group: the pattern matches a prefix of the line iff
the line starts with `\begin{` followed by a non-empty run of word
characters and then `}` (the greedy `\w+` cannot backtrack onto `}`,
because `}` is not a word character). -/
def env_begin_match (l : List Char) : Option String :=
  if l.take 7 = beginMarker then
    let rest := l.drop 7
    let w := rest.takeWhile isWordCh
    if w ≠ [] ∧ (rest.drop w.length).take 1 = ['\x7d'] then some (String.mk w) else none
  else none

/-- Embeds `Validator.env_end_regex.match(line)` for `\\end{(\w+)}` as a
Boolean (the captured group of an end marker is never used). -/
def env_end_match (l : List Char) : Bool :=
  if l.take 5 = endMarker then
    let rest := l.drop 5
    let w := rest.takeWhile isWordCh
    decide (w ≠ []) && decide ((rest.drop w.length).take 1 = ['\x7d'])
  else false

/-- Length of an inline-math closer `\$\$|\$|\\\]` at the head of `t`,
with the alternatives tried in that order. -/
def closerLen (t : List Char) : Option Nat :=
  match t with
  | a :: b :: _ =>
    if a = '$' then (if b = '$' then some 2 else some 1)
    else if a = '\\' ∧ b = ']' then some 2
    else none
  | [a] => if a = '$' then some 1 else none
  | [] => none

/-- The lazy `.+?` of `math_env_regex` followed by a closer: consume at least
one non-newline character, then at each position try the closer first
(shortest match preferred).  Returns the number of characters consumed by
`.+?` and by the closer. -/
def scanBody : List Char → Option (Nat × Nat)
  | [] => none
  | c :: rest =>
    if c = '\n' then none
    else
      match closerLen rest with
      | some m => some (1, m)
      | none =>
        match scanBody rest with
        | some (d, m) => some (d + 1, m)
        | none => none

/-- Try one opener alternative of `math_env_regex` at the head of `s`:
if `s` starts with the opener, run the lazy body-and-closer scan after it
and return the total match length. -/
def openerTry (o : List Char) (s : List Char) : Option Nat :=
  if listStarts o s then (scanBody (s.drop o.length)).map (fun p => o.length + p.1 + p.2)
  else none

/-- Try `math_env_regex` = `((?:\$\$|\$|\\\[).+?(?:\$\$|\$|\\\]))` at the
head of `s`, returning the length of the match.  As in `sre`, the opener
alternatives `$$`, `$`, `\[` are tried in order, and a later alternative is
tried when an earlier one admits no completion. -/
def tryMatchMath (s : List Char) : Option Nat :=
  match openerTry ['$', '$'] s with
  | some n => some n
  | none =>
    match openerTry ['$'] s with
    | some n => some n
    | none => openerTry ['\\', '['] s

/-- The scanning loop of `math_env_regex.split(line)`: walk the line left to
right; at the first position where the regex matches, emit the text seen so
far, the matched chunk (the whole match is the capture group), and continue
after it.  The fuel only bounds recursion depth and is chosen to always
suffice; the fallback preserves the concatenation of the pieces. -/
def splitAuxF : Nat → List Char → List Char → List (List Char)
  | 0, acc, s => [acc.reverse ++ s]
  | _ + 1, acc, [] => [acc.reverse]
  | fuel + 1, acc, c :: rest =>
    match tryMatchMath (c :: rest) with
    | some n => acc.reverse :: (c :: rest).take n :: splitAuxF fuel [] ((c :: rest).drop n)
    | none => splitAuxF fuel (c :: acc) rest

/-- Embeds `Validator.math_env_regex.split(line)`.  Because the whole pattern
is one capture group, the result alternates between text pieces and matched
inline-math pieces, starting and ending with a (possibly empty) text piece. -/
def splitChunks (s : List Char) : List (List Char) :=
  splitAuxF (s.length + 1) [] s

/-- The chunk list built by `Validator.validate` (lines 55-61): if the
current environment is `math` the line is not split and the chunk list is
`["", line]`; otherwise it is `math_env_regex.split(line)`. -/
def chunkPieces (top : String) (line : List Char) : List (List Char) :=
  if top = "math" then [[], line] else splitChunks line

/-- Translate a span by a chunk offset, as in line 70 of `validator.py`. -/
def shiftSpan (off : Nat) (sp : Nat × Nat) : Nat × Nat := (sp.1 + off, sp.2 + off)

/-- The main loop of `Validator.validate` (lines 64-73): chunks are zipped
with `itertools.cycle([top, "math"])`, every rule of `RULES_LIST` is run on
every chunk in registration order, each returned span is shifted by the
running offset, and the offset grows by the chunk's length afterwards. -/
def runChunksAux (top : String) : List (List Char) → Bool → Nat → List (Rule × (Nat × Nat))
  | [], _, _ => []
  | c :: rest, isTop, off =>
    (RULES_LIST.flatMap fun r =>
      (rule_wrapper r c (if isTop then top else "math")).map (fun sp => (r, shiftSpan off sp)))
      ++ runChunksAux top rest (!isTop) (off + c.length)

/-- The offsets assigned to successive chunks by the `offset` accumulator of
`Validator.validate`. -/
def codeOffsets : List (List Char) → Nat → List Nat
  | [], _ => []
  | c :: rest, off => off :: codeOffsets rest (off + c.length)

/-- Sum of the lengths of a list of chunks. -/
def sumLens (l : List (List Char)) : Nat := (l.map List.length).sum

/-- The environment-stack update of `Validator.validate` (lines 45-52): a
line matching `env_begin_regex` pushes the category of its environment; a
line matching `env_end_regex` pops unconditionally — popping an empty stack
raises `IndexError` in Python, modelled as `Except.error`. -/
def updateEnvs (st : List String) (line : List Char) : Except String (List String) :=
  let st1 := match env_begin_match line with
    | some w => st ++ [LATEX_ENVS w]
    | none => st
  if env_end_match line then
    match st1 with
    | [] => .error "IndexError"
    | _ => .ok st1.dropLast
  else .ok st1

/-- One call to `Validator.validate(line)`: update the environment stack,
read `self._envs[-1]` (an `IndexError` if the stack has become empty), split
the line into chunks and run every rule on every chunk.  Returns the new
stack and the yielded `(rule, span)` pairs in order. -/
def validateLine (st : List String) (line : List Char) :
    Except String (List String × List (Rule × (Nat × Nat))) :=
  match updateEnvs st line with
  | .error e => .error e
  | .ok st2 =>
    match st2.getLast? with
    | none => .error "IndexError"
    | some top => .ok (st2, runChunksAux top (chunkPieces top line) true 0)

/-- Feed a list of lines through one `Validator` instance, starting from the
initial stack `["paragraph"]` state passed in, collecting all yielded pairs;
the first raised `IndexError` aborts the run. -/
def runLines : List String → List (List Char) →
    Except String (List String × List (Rule × (Nat × Nat)))
  | st, [] => .ok (st, [])
  | st, l :: ls =>
    match validateLine st l with
    | .error e => .error e
    | .ok (st2, out) =>
      match runLines st2 ls with
      | .error e => .error e
      | .ok (st3, outs) => .ok (st3, out ++ outs)

/-- The pairs yielded by a successful `validate` call (empty on error);
projection used to state claims about single lines. -/
def validOut (st : List String) (line : List Char) : List (Rule × (Nat × Nat)) :=
  match validateLine st line with
  | .ok (_, out) => out
  | .error _ => []

/-- The environment assigned to chunk index `i` by
`itertools.cycle([top, "math"])` when the cycle starts in phase `b`
(`b = true` at the first chunk). -/
def cycEnv (top : String) (b : Bool) (i : Nat) : String :=
  if i % 2 = 0 then (if b then top else "math") else (if b then "math" else top)

/-- Every opener alternative is non-empty, so a `math_env_regex` match has
positive length. -/
theorem openerTry_pos {o s : List Char} {n : Nat} (ho : o ≠ []) (h : openerTry o s = some n) :
    0 < n := by
  unfold openerTry at h
  split_ifs at h
  cases hsb : scanBody (s.drop o.length) with
  | none => rw [hsb] at h; simp at h
  | some p =>
    rw [hsb] at h
    simp only [Option.map_some', Option.some.injEq] at h
    have : 0 < o.length := List.length_pos.mpr ho
    omega

/-- A `math_env_regex` match has positive length. -/
theorem tryMatchMath_pos {s : List Char} {n : Nat} (h : tryMatchMath s = some n) : 0 < n := by
  unfold tryMatchMath at h
  cases h1 : openerTry ['$', '$'] s with
  | some m =>
    rw [h1] at h; simp only [Option.some.injEq] at h
    exact h ▸ openerTry_pos (by simp) h1
  | none =>
    rw [h1] at h; simp only at h
    cases h2 : openerTry ['$'] s with
    | some m =>
      rw [h2] at h; simp only [Option.some.injEq] at h
      exact h ▸ openerTry_pos (by simp) h2
    | none =>
      rw [h2] at h; simp only at h
      exact openerTry_pos (by simp) h

/-- Concatenating the pieces produced by the split scan always reproduces the
input, for any fuel. -/
theorem splitAuxF_flatten : ∀ (fuel : Nat) (acc s : List Char),
    (splitAuxF fuel acc s).flatten = acc.reverse ++ s := by
  intro fuel
  induction fuel with
  | zero => intro acc s; simp [splitAuxF]
  | succ fuel ih =>
    intro acc s
    cases s with
    | nil => simp [splitAuxF]
    | cons c rest =>
      simp only [splitAuxF]
      cases h : tryMatchMath (c :: rest) with
      | some n =>
        simp only [List.flatten_cons, ih]
        rw [List.reverse_nil, List.nil_append, List.take_append_drop]
      | none =>
        rw [ih]
        simp

/-- A successful prefix test decomposes the string. -/
theorem listStarts_exists : ∀ {p t : List Char}, listStarts p t = true → ∃ t', t = p ++ t' := by
  intro p
  induction p with
  | nil => intro t _; exact ⟨t, rfl⟩
  | cons a ps ih =>
    intro t h
    cases t with
    | nil => simp [listStarts] at h
    | cons c cs =>
      simp only [listStarts, Bool.and_eq_true, beq_iff_eq] at h
      obtain ⟨rfl, h2⟩ := h
      obtain ⟨t', rfl⟩ := ih h2
      exact ⟨t', rfl⟩

/-- If a pattern occurs at the head of a suffix of `s`, it occurs in `s`. -/
theorem hasSub_of_suffix {pat t s : List Char} (hst : listStarts pat t = true)
    (hsuf : t <:+ s) : hasSub pat s = true := by
  induction s with
  | nil =>
    have ht : t = [] := List.suffix_nil.mp hsuf
    subst ht
    simpa [hasSub] using hst
  | cons c rest ih =>
    rcases List.suffix_cons_iff.mp hsuf with h | h
    · subst h; simp [hasSub, hst]
    · simp [hasSub, ih h]

/-- A closer starts with `$` or with `\]`. -/
theorem closerLen_shape : ∀ {v : List Char} {m : Nat}, closerLen v = some m →
    (∃ v', v = '$' :: v') ∨ (∃ v', v = '\\' :: ']' :: v') := by
  intro v m h
  match v with
  | [] => simp [closerLen] at h
  | [a] =>
    simp only [closerLen] at h
    split_ifs at h with h1
    exact Or.inl ⟨[], by rw [h1]⟩
  | a :: b :: t =>
    simp only [closerLen] at h
    split_ifs at h with h1 h2 h3
    · exact Or.inl ⟨b :: t, by rw [h1]⟩
    · exact Or.inl ⟨b :: t, by rw [h1]⟩
    · exact Or.inr ⟨t, by rw [h3.1, h3.2]⟩

/-- The body scan only succeeds when a closer occurs at the head of some
suffix of the remaining input. -/
theorem scanBody_closer : ∀ {u : List Char} {p : Nat × Nat}, scanBody u = some p →
    ∃ v, v <:+ u ∧ closerLen v = some p.2 := by
  intro u
  induction u with
  | nil => intro p h; simp [scanBody] at h
  | cons c rest ih =>
    intro p h
    unfold scanBody at h
    split_ifs at h with hc
    cases h1 : closerLen rest with
    | some m =>
      rw [h1] at h
      simp only [Option.some.injEq] at h
      exact ⟨rest, List.suffix_cons c rest, by rw [h1, ← h]⟩
    | none =>
      rw [h1] at h
      cases h2 : scanBody rest with
      | none => rw [h2] at h; simp at h
      | some q =>
        rw [h2] at h
        simp only [Option.some.injEq] at h
        obtain ⟨v, hv1, hv2⟩ := ih h2
        exact ⟨v, hv1.trans (List.suffix_cons c rest), by rw [hv2, ← h]⟩

/-- Character counts can only shrink when passing to a suffix. -/
theorem count_le_of_suffix {t s : List Char} (h : t <:+ s) (a : Char) :
    t.count a ≤ s.count a :=
  h.sublist.count_le a

/-- On a line carrying at most one `$` and no `\[` or `\]`, `math_env_regex`
matches at no suffix: every opener-closer pair would need a second dollar
sign or a bracket delimiter. -/
theorem tryMatchMath_none_of {s : List Char}
    (h1 : s.count '$' ≤ 1) (h2 : hasSub ['\\', '['] s = false)
    (h3 : hasSub ['\\', ']'] s = false)
    {t : List Char} (hts : t <:+ s) : tryMatchMath t = none := by
  have hdd : openerTry ['$', '$'] t = none := by
    unfold openerTry
    split_ifs with hstart
    · exfalso
      obtain ⟨t', ht⟩ := listStarts_exists hstart
      have hc := count_le_of_suffix hts '$'
      rw [ht] at hc
      simp [List.count_cons] at hc
      omega
    · rfl
  have hbr : openerTry ['\\', '['] t = none := by
    unfold openerTry
    split_ifs with hstart
    · exfalso
      have := hasSub_of_suffix hstart hts
      rw [h2] at this
      cases this
    · rfl
  have hd1 : openerTry ['$'] t = none := by
    unfold openerTry
    split_ifs with hstart
    · obtain ⟨t', ht⟩ := listStarts_exists hstart
      cases hsb : scanBody (t.drop 1) with
      | none => simp [← List.drop_one, hsb]
      | some p =>
        exfalso
        obtain ⟨v, hv, hcl⟩ := scanBody_closer hsb
        have hvt : v <:+ t := hv.trans (List.drop_suffix 1 t)
        rcases closerLen_shape hcl with ⟨v', hv'⟩ | ⟨v', hv'⟩
        · have hc1 : v.count '$' ≤ (t.drop 1).count '$' := count_le_of_suffix hv '$'
          have hc2 : t.count '$' ≤ s.count '$' := count_le_of_suffix hts '$'
          rw [ht] at hc2
          rw [ht] at hc1
          rw [hv'] at hc1
          simp [List.count_cons] at hc1 hc2
          omega
        · have hvst : listStarts ['\\', ']'] v = true := by
            rw [hv']; simp [listStarts]
          have := hasSub_of_suffix hvst (hvt.trans hts)
          rw [h3] at this
          cases this
    · rfl
  unfold tryMatchMath
  rw [hdd, hd1, hbr]

/-- If `math_env_regex` matches at no suffix of `s`, the split scan returns
the whole input as a single piece. -/
theorem splitAuxF_no_match : ∀ (fuel : Nat) {s : List Char} (acc : List Char),
    (∀ t, t <:+ s → tryMatchMath t = none) → splitAuxF fuel acc s = [acc.reverse ++ s] := by
  intro fuel
  induction fuel with
  | zero => intro s acc _; rfl
  | succ fuel ih =>
    intro s acc h
    cases s with
    | nil => simp [splitAuxF]
    | cons c rest =>
      have hnone := h (c :: rest) (List.suffix_refl _)
      simp only [splitAuxF]
      rw [hnone]
      rw [ih (c :: acc) (fun t ht => h t (ht.trans (List.suffix_cons c rest)))]
      simp

/-- The running `offset` accumulator equals the prefix sums of chunk lengths. -/
theorem codeOffsets_eq : ∀ (chunks : List (List Char)) (start : Nat),
    codeOffsets chunks start =
      (List.range chunks.length).map (fun i => start + sumLens (chunks.take i)) := by
  intro chunks
  induction chunks with
  | nil => intro start; simp [codeOffsets]
  | cons c rest ih =>
    intro start
    rw [codeOffsets, ih, List.length_cons, List.range_succ_eq_map, List.map_cons, List.map_map]
    congr 1
    refine List.map_congr_left (fun i _ => ?_)
    simp [Function.comp, sumLens, List.take_succ_cons, Nat.add_assoc]

/-- Shifting the start index of an enumeration by one. -/
theorem enumFrom_succ_map {α : Type} : ∀ (l : List α) (n : Nat),
    List.enumFrom (n + 1) l = (List.enumFrom n l).map (fun p => (p.1 + 1, p.2)) := by
  intro l
  induction l with
  | nil => intro n; simp
  | cons a t ih => intro n; simp [List.enumFrom_cons, ih]

/-- Advancing the cycle `[top, "math"]` by one chunk flips its phase. -/
theorem cycEnv_succ (top : String) (b : Bool) (i : Nat) :
    cycEnv top b (i + 1) = cycEnv top (!b) i := by
  unfold cycEnv
  rcases Nat.mod_two_eq_zero_or_one i with h | h
  · have h2 : (i + 1) % 2 = 1 := by omega
    rw [h, h2]
    cases b <;> simp
  · have h2 : (i + 1) % 2 = 0 := by omega
    rw [h, h2]
    cases b <;> simp

/-- A line matching `env_end_regex` cannot match `env_begin_regex`: their
literal prefixes disagree at the second character. -/
theorem end_not_begin {l : List Char} (h : env_end_match l = true) :
    env_begin_match l = none := by
  unfold env_end_match at h
  split_ifs at h with h5
  unfold env_begin_match
  split_ifs with h7
  · exfalso
    have h55 : l.take 5 = beginMarker.take 5 := by
      rw [← h7, List.take_take]
      norm_num
    rw [h5] at h55
    exact absurd h55 (by decide)
  · rfl

/-- No registered pattern matches anywhere in the empty string: every rule's
regex needs at least one character. -/
theorem rules_empty_spans : ∀ r ∈ RULES_LIST, findSpans r.pattern [] = [] := by
  decide

/-- Evaluating any registered rule on an empty chunk yields no violations,
whatever the environment: either the environment filter returns `[]`
directly, or `finditer` finds nothing in the empty string. -/
theorem rule_wrapper_empty {r : Rule} (hr : r ∈ RULES_LIST) (env : String) :
    rule_wrapper r [] env = [] := by
  unfold rule_wrapper
  split_ifs with h
  · exact rules_empty_spans r hr
  · rfl

/-- A `flatMap` whose function vanishes on every member is empty. -/
theorem flatMap_eq_nil_of {α β : Type} {l : List α} {f : α → List β}
    (h : ∀ a ∈ l, f a = []) : l.flatMap f = [] := by
  induction l with
  | nil => rfl
  | cons a t ih =>
    rw [List.flatMap_cons, h a (List.mem_cons_self a t), List.nil_append]
    exact ih (fun x hx => h x (List.mem_cons_of_mem a hx))

/-- Normal form of the chunk loop of `Validator.validate`: the yielded pairs
are exactly, in order, for each chunk (by position), for each rule (in
registration order), the spans the rule returns on that chunk (in discovery
order), shifted by the sum of the lengths of the preceding chunks. -/
theorem runChunksAux_eq (top : String) : ∀ (chunks : List (List Char)) (b : Bool) (off : Nat),
    runChunksAux top chunks b off =
      chunks.enum.flatMap (fun p =>
        RULES_LIST.flatMap (fun r =>
          (rule_wrapper r p.2 (cycEnv top b p.1)).map
            (fun sp => (r, shiftSpan (off + sumLens (chunks.take p.1)) sp)))) := by
  intro chunks
  induction chunks with
  | nil => intro b off; simp [runChunksAux]
  | cons c rest ih =>
    intro b off
    rw [runChunksAux, List.enum_cons, List.flatMap_cons]
    have h0 : List.enumFrom 1 rest = rest.enum.map (fun p => (p.1 + 1, p.2)) :=
      enumFrom_succ_map rest 0
    rw [h0, List.flatMap_map, ih (!b) (off + c.length)]
    congr 1
    refine List.flatMap_congr (fun p _ => ?_)
    refine List.flatMap_congr (fun r _ => ?_)
    rw [cycEnv_succ]
    have : off + sumLens (List.take (p.1 + 1) (c :: rest)) =
        off + c.length + sumLens (List.take p.1 rest) := by
      simp [sumLens, List.take_succ_cons, Nat.add_assoc]
    rw [this]

/-- Claim C1, counterexample.  The claim asserts that feeding end markers
with no preceding begin markers leaves the tracker at the base `paragraph`
context with no error or crash.  On the code this is false at the single
input line `\end{document}` from the fresh state: `validate` pops the base
entry unconditionally (line 52 of `validator.py`), and the subsequent
`self._envs[-1]` on the emptied stack raises `IndexError`, so processing
stops with an error instead of remaining at the base context. -/
theorem end_marker_from_base_errors :
    runLines ["paragraph"] [("\\end\x7bdocument\x7d".toList)] = .error "IndexError" := by
  rfl

/-- Claim C1, amended.  For every non-empty sequence of lines that all match
the end-marker regex (and hence none matches the begin-marker regex), the
run from the fresh state `["paragraph"]` raises `IndexError` at the first
line: the unconditional pop empties the stack and reading `self._envs[-1]`
fails, rather than the pop being a no-op at the base context. -/
theorem end_marker_lines_error (lines : List (List Char)) (h1 : lines ≠ [])
    (h2 : ∀ l ∈ lines, env_end_match l = true) :
    runLines ["paragraph"] lines = .error "IndexError" := by
  cases lines with
  | nil => exact absurd rfl h1
  | cons l ls =>
    have hend := h2 l (List.mem_cons_self l ls)
    have hbeg := end_not_begin hend
    have hv : validateLine ["paragraph"] l = .error "IndexError" := by
      simp [validateLine, updateEnvs, hbeg, hend]
    simp [runLines, hv]

/-- Witness for `end_marker_lines_error` at the concrete one-line sequence
`\end{align}`. -/
theorem end_marker_lines_error_witness :
    runLines ["paragraph"] [("\\end\x7balign\x7d".toList)] = .error "IndexError" :=
  end_marker_lines_error [("\\end\x7balign\x7d".toList)] (by decide) (by decide)

/-- Claim C2, counterexample.  The claim asserts a stateful quote-balancing
rule: a matched opener-closer pair yields zero violations and an unmatched
opener yields exactly one violation at the opener's span.  Both sourced
quote rules refute this: on the claim's own example chunk
`"He said, \x60hello\x27."` the rule `check_double_quote` yields one violation per
double-quote character — two violations at `(0,1)` and `(18,19)` for the
matched outer pair, where the claim demands zero; and on the chunk
`` ` ``+`ok` (a single-style opener with no closer) `check_single_quote`
yields zero violations where the claim demands exactly one at span `(1,2)`. -/
theorem quote_pair_balance_refuted :
    rule_wrapper check_double_quote ("\x22He said, \x60hello\x27.\x22".toList) "paragraph" =
      [(0, 1), (18, 19)] ∧
    rule_wrapper check_single_quote (" \x60ok".toList) "paragraph" = [] :=
  ⟨by decide, by decide⟩

/-- Claim C2, amended.  The registry's quote rules are stateless per-match
pattern rules, not balance checkers: `check_double_quote` yields one
violation per occurrence of `"` regardless of pairing (two on a matched
pair, one on an unpaired quote), and `check_single_quote` yields one
violation per complete match of whitespace-quote-text-quote-terminator and
none for an unmatched opener. -/
theorem quote_rules_flag_per_match :
    rule_wrapper check_double_quote ("\x22ok\x22".toList) "paragraph" = [(0, 1), (3, 4)] ∧
    rule_wrapper check_double_quote ("\x22ok".toList) "paragraph" = [(0, 1)] ∧
    rule_wrapper check_single_quote ("It is \x27too good to be true\x27.".toList) "paragraph" =
      [(5, 28)] ∧
    rule_wrapper check_single_quote (" \x60ok".toList) "paragraph" = [] :=
  ⟨by decide, by decide, by decide, by decide⟩

/-- Claim C8.  Running the full `Validator.validate` pipeline from the fresh
state on the line `Napoleonic war.\cite{smith08}` yields, for the
citation-after-period rule, exactly one violation spanning the `.\cite{`
substring (indices 14 to 21); on `Napoleonic war~\cite{smith08}.` that rule
yields no violation. -/
theorem cite_after_period_end_to_end :
    (validOut ["paragraph"] ("Napoleonic war.\\cite\x7bsmith08\x7d".toList)).filter
        (fun v => v.1 == check_cite_after_period) =
      [(check_cite_after_period, (14, 21))] ∧
    (validOut ["paragraph"] ("Napoleonic war~\\cite\x7bsmith08\x7d.".toList)).filter
        (fun v => v.1 == check_cite_after_period) = [] :=
  ⟨by decide, by decide⟩

/-- Claim C9.  The chunk splitter pairs any opener with the nearest closer of
any style: on the prose line `a$x\]b` it produces the math chunk `$x\]`,
which opens with the `$` delimiter and closes with the `\]` delimiter. -/
theorem math_chunk_mixed_delimiters :
    chunkPieces "paragraph" ("a$x\\]b".toList) =
      [['a'], ['$', 'x', '\\', ']'], ['b']] := by
  decide

/-- Claim C3.  For every line and every current context: concatenating the
chunks produced by the splitting step of `Validator.validate` reproduces the
line exactly, and the offset the loop assigns to each chunk equals the sum
of the lengths of all preceding chunks (in particular the first offset
is 0). -/
theorem chunk_concat_offsets_exact (top : String) (line : List Char) :
    (chunkPieces top line).flatten = line ∧
    codeOffsets (chunkPieces top line) 0 =
      (List.range (chunkPieces top line).length).map
        (fun i => sumLens ((chunkPieces top line).take i)) := by
  constructor
  · unfold chunkPieces
    split_ifs with h
    · simp
    · unfold splitChunks
      rw [splitAuxF_flatten]
      simp
  · rw [codeOffsets_eq]
    refine List.map_congr_left (fun i _ => ?_)
    simp

/-- Claim C5.  When `validate` does not raise, its yielded pairs are, in this
exact stable order: for each chunk by position (even positions carry the
outer context, odd ones `math`), for each rule in registration order, the
rule's spans in discovery order, each span translated by adding the chunk's
offset (the sum of the lengths of the preceding chunks) to both endpoints. -/
theorem validate_order_and_translation (st : List String) (line : List Char)
    (st2 : List String) (top : String)
    (h1 : updateEnvs st line = .ok st2) (h2 : st2.getLast? = some top) :
    validateLine st line = .ok (st2,
      (chunkPieces top line).enum.flatMap (fun p =>
        RULES_LIST.flatMap (fun r =>
          (rule_wrapper r p.2 (if p.1 % 2 = 0 then top else "math")).map
            (fun sp => (r, (sp.1 + sumLens ((chunkPieces top line).take p.1),
                            sp.2 + sumLens ((chunkPieces top line).take p.1))))))) := by
  have hv : validateLine st line =
      .ok (st2, runChunksAux top (chunkPieces top line) true 0) := by
    simp [validateLine, h1, h2]
  rw [hv, runChunksAux_eq]
  congr 1
  congr 1
  refine List.flatMap_congr (fun p _ => ?_)
  refine List.flatMap_congr (fun r _ => ?_)
  have henv : cycEnv top true p.1 = if p.1 % 2 = 0 then top else "math" := by
    simp [cycEnv]
  rw [henv]
  refine List.map_congr_left (fun sp _ => ?_)
  simp [shiftSpan]

/-- Witness for `validate_order_and_translation` at the fresh state and the
concrete line `x $y$ z`. -/
theorem validate_order_and_translation_witness :
    validateLine ["paragraph"] ("x $y$ z".toList) = .ok (["paragraph"],
      (chunkPieces "paragraph" ("x $y$ z".toList)).enum.flatMap (fun p =>
        RULES_LIST.flatMap (fun r =>
          (rule_wrapper r p.2 (if p.1 % 2 = 0 then "paragraph" else "math")).map
            (fun sp => (r, (sp.1 + sumLens ((chunkPieces "paragraph" ("x $y$ z".toList)).take p.1),
                            sp.2 + sumLens ((chunkPieces "paragraph" ("x $y$ z".toList)).take p.1))))))) :=
  validate_order_and_translation ["paragraph"] ("x $y$ z".toList) ["paragraph"] "paragraph"
    (by rfl) (by rfl)

/-- Claim C4.  For a line processed while the (post-marker) top of the stack
is `math`: the line is not segmented — the chunk list is `["", line]` with
both chunks in context `math` — and since no rule matches inside the empty
artifact chunk, the yielded pairs are exactly one evaluation of every rule
on the whole line with context `math`, with unshifted spans. -/
theorem math_context_whole_line_once (st : List String) (line : List Char)
    (st2 : List String) (h1 : updateEnvs st line = .ok st2)
    (h2 : st2.getLast? = some "math") :
    chunkPieces "math" line = [[], line] ∧
    validateLine st line = .ok (st2,
      RULES_LIST.flatMap (fun r =>
        (rule_wrapper r line "math").map (fun sp => (r, sp)))) := by
  have hch : chunkPieces "math" line = [[], line] := by simp [chunkPieces]
  refine ⟨hch, ?_⟩
  have hv : validateLine st line =
      .ok (st2, runChunksAux "math" (chunkPieces "math" line) true 0) := by
    simp [validateLine, h1, h2]
  rw [hv, hch]
  congr 1
  congr 1
  simp only [runChunksAux, List.append_nil, List.length_nil, Nat.add_zero, ite_self]
  rw [show (RULES_LIST.flatMap fun r =>
        List.map (fun sp => (r, shiftSpan 0 sp)) (rule_wrapper r ([] : List Char) "math")) = []
      from flatMap_eq_nil_of (fun r hr => by rw [rule_wrapper_empty hr]; rfl), List.nil_append]
  refine List.flatMap_congr (fun r _ => ?_)
  simp [shiftSpan]

/-- Witness for `math_context_whole_line_once` with the stack
`["paragraph", "math"]` and the concrete line `x+y`. -/
theorem math_context_whole_line_once_witness :
    chunkPieces "math" ("x+y".toList) = [[], ("x+y".toList)] ∧
    validateLine ["paragraph", "math"] ("x+y".toList) = .ok (["paragraph", "math"],
      RULES_LIST.flatMap (fun r =>
        (rule_wrapper r ("x+y".toList) "math").map (fun sp => (r, sp)))) :=
  math_context_whole_line_once ["paragraph", "math"] ("x+y".toList) ["paragraph", "math"]
    (by rfl) (by rfl)

/-- Claim C6.  A registered rule declaring a fixed environment (not `"any"`)
returns the empty list on every chunk when evaluated under any other
environment tag: the `wrapper` filter short-circuits before running the
pattern. -/
theorem fixed_context_rule_empty (r : Rule) (hr : r ∈ RULES_LIST)
    (hC : r.in_env ≠ "any") (env : String) (hD : env ≠ r.in_env) (text : List Char) :
    rule_wrapper r text env = [] := by
  unfold rule_wrapper
  have hcond : ¬(r.in_env = "any" ∨ env = r.in_env) := by
    rintro (h | h)
    · exact hC h
    · exact hD h
  rw [if_neg hcond]

/-- Witness for `fixed_context_rule_empty`: the math-only rule
`check_double_dollar_math` yields nothing on `$$x$$` in `paragraph` context. -/
theorem fixed_context_rule_empty_witness :
    rule_wrapper check_double_dollar_math ("$$x$$".toList) "paragraph" = [] :=
  fixed_context_rule_empty check_double_dollar_math (by decide) (by decide)
    "paragraph" (by decide) ("$$x$$".toList)

/-- Claim C7.  Evaluating any registered rule on the empty chunk returns the
empty list, in every environment; evaluation is a total function in this
embedding (the Python wrapper cannot raise: it either filters on the
environment or returns the finditer spans). -/
theorem rule_empty_chunk_no_violations (r : Rule) (hr : r ∈ RULES_LIST) (env : String) :
    rule_wrapper r [] env = [] :=
  rule_wrapper_empty hr env

/-- Witness for `rule_empty_chunk_no_violations` at `check_double_quote`. -/
theorem rule_empty_chunk_no_violations_witness :
    rule_wrapper check_double_quote [] "paragraph" = [] :=
  rule_empty_chunk_no_violations check_double_quote (by decide) "paragraph"

/-- Claim C10.  A prose-context line containing exactly one `$` and no `\[`
or `\]` is never split: it stays one chunk, carrying the outer context, at
offset 0, and the loop evaluates every rule once on the whole line under the
outer context with unshifted spans. -/
theorem single_dollar_line_unsplit (top : String) (line : List Char)
    (hTop : top ≠ "math") (h1 : line.count '$' = 1)
    (h2 : hasSub ['\\', '['] line = false) (h3 : hasSub ['\\', ']'] line = false) :
    chunkPieces top line = [line] ∧
    codeOffsets (chunkPieces top line) 0 = [0] ∧
    runChunksAux top (chunkPieces top line) true 0 =
      RULES_LIST.flatMap (fun r =>
        (rule_wrapper r line top).map (fun sp => (r, sp))) := by
  have hsplit : chunkPieces top line = [line] := by
    unfold chunkPieces
    rw [if_neg hTop]
    unfold splitChunks
    rw [splitAuxF_no_match _ _ (fun t ht => tryMatchMath_none_of (by omega) h2 h3 ht)]
    simp
  refine ⟨hsplit, ?_, ?_⟩
  · rw [hsplit]
    rfl
  · rw [hsplit]
    simp only [runChunksAux, List.append_nil]
    refine List.flatMap_congr (fun r _ => ?_)
    simp [shiftSpan]

/-- Witness for `single_dollar_line_unsplit` at the concrete line `a $ b`. -/
theorem single_dollar_line_unsplit_witness :
    chunkPieces "paragraph" ("a $ b".toList) = [("a $ b".toList)] ∧
    codeOffsets (chunkPieces "paragraph" ("a $ b".toList)) 0 = [0] ∧
    runChunksAux "paragraph" (chunkPieces "paragraph" ("a $ b".toList)) true 0 =
      RULES_LIST.flatMap (fun r =>
        (rule_wrapper r ("a $ b".toList) "paragraph").map (fun sp => (r, sp))) :=
  single_dollar_line_unsplit "paragraph" ("a $ b".toList) (by decide) (by decide)
    (by decide) (by decide)
